import Mathlib

/-!
Shallow embedding of the transaction pipeline in `src/expense_analyzer.py`
(BetterAccounting): CSV standardization across bank formats, category
backfill from an external classification lookup, ledger assignment in the
main loop, and the per-ledger financial analysis.

A pandas DataFrame is embedded as a list of column names plus a list of
rows; each row is an association list from column name to a cell value.
Cell values are `Val`: missing (NaN/NaT), a string, a parsed number
(embedded as a rational, standing for the Python float), or a parsed date
(embedded as an integer ordinal).  Library parsing functions
(`pd.to_datetime` on a string, `astype(float)` on a string) are
parameters `pdte`/`pflt` of the embedding; concrete instances are supplied
for witnesses.
-/

/-- Cell value of a DataFrame: missing (NaN/NaT), string, float, or datetime. -/
inductive Val where
  | nan : Val
  | str (s : String) : Val
  | num (q : ℚ) : Val
  | date (d : ℤ) : Val
  deriving DecidableEq

/-- Tests for a missing cell, as pandas `isna`. -/
def Val.isNa : Val → Bool
  | .nan => true
  | _ => false

/-- A DataFrame row: association list from column name to cell value. -/
abbrev RowV := List (String × Val)

/-- A DataFrame: column names plus rows. -/
structure DF where
  cols : List String
  rows : List RowV
  deriving DecidableEq

/-- Reads a cell from a row; an absent key reads as missing. -/
def getVal (r : RowV) (c : String) : Val :=
  match r with
  | [] => .nan
  | p :: t => if p.1 = c then p.2 else getVal t c

/-- Writes a cell, replacing an existing column in place or appending a new
one at the end, as pandas column assignment does. -/
def setVal (r : RowV) (c : String) (v : Val) : RowV :=
  if r.any (fun p => decide (p.1 = c)) then
    r.map (fun p => if p.1 = c then (c, v) else p)
  else r ++ [(c, v)]

/-- Row-level error during a branch of `standardize_csv`: a cell value
a conversion rejects, or an accessed column that does not exist. -/
inductive ConvErr where
  | badValue (what : String) : ConvErr
  | missingColumn (c : String) : ConvErr
  deriving DecidableEq

/-- Error of `standardize_csv`: the explicit `ValueError("Unsupported CSV
format")` of the final `else`, or an exception from one of the per-format
conversion branches. -/
inductive StdErr where
  | unsupportedFormat : StdErr
  | conv (e : ConvErr) : StdErr
  deriving DecidableEq

/-- Error-propagating map over a list, for the column conversions. -/
def exMapM {α β ε : Type} (f : α → Except ε β) : List α → Except ε (List β)
  | [] => .ok []
  | a :: t =>
    match f a with
    | .error e => .error e
    | .ok b =>
      match exMapM f t with
      | .error e => .error e
      | .ok bs => .ok (b :: bs)

/-- Checks that every required column exists, as the `df[col]` accesses of
a branch do (a missing column raises `KeyError` in pandas). -/
def requireCols (cols : List String) : List String → Except ConvErr Unit
  | [] => .ok ()
  | c :: t => if c ∈ cols then requireCols cols t else .error (.missingColumn c)

/-- The double-quote character, which `.str.replace` removes. -/
def quoteChar : Char := Char.ofNat 34

/-- Removes every double quote from a string, as
`.str.replace(chr(34), '')` in the source. -/
def stripQuotes (s : String) : String :=
  String.mk (s.toList.filter (fun ch => decide (ch ≠ quoteChar)))

/-- Embeds `pd.to_datetime` on one cell: missing stays missing (NaT), an
already-parsed date passes through, a string parses via the date parser
`pdte` or raises; numeric cells are outside the modelled inputs. -/
def toDatetime (pdte : String → Option ℤ) : Val → Except ConvErr Val
  | .nan => .ok .nan
  | .date d => .ok (.date d)
  | .str s =>
    match pdte s with
    | some d => .ok (.date d)
    | none => .error (.badValue "to_datetime")
  | .num _ => .error (.badValue "to_datetime")

/-- Embeds `astype(float)` on one cell: missing stays missing, a number
passes through, a string parses via the float parser `pflt` or raises. -/
def astypeFloat (pflt : String → Option ℚ) : Val → Except ConvErr Val
  | .nan => .ok .nan
  | .num q => .ok (.num q)
  | .str s =>
    match pflt s with
    | some q => .ok (.num q)
    | none => .error (.badValue "astype float")
  | .date _ => .error (.badValue "astype float")

/-- Embeds the `.str.replace` quote stripping on one cell: missing stays
missing, a string is stripped, any other dtype raises. -/
def strReplaceQuotes : Val → Except ConvErr Val
  | .nan => .ok .nan
  | .str s => .ok (.str (stripQuotes s))
  | .num _ => .error (.badValue "str accessor")
  | .date _ => .error (.badValue "str accessor")

/-- Columns the VyStar branch of `standardize_csv` reads. -/
def vystarCols : List String :=
  ["PostingDate", "Amount", "Description", "Category", "RunningBalance"]

/-- Columns the Bank of America branch of `standardize_csv` reads. -/
def boaCols : List String :=
  ["Date", "Amount", "Description", "Running Bal."]

/-- The five canonical columns `standardize_csv` returns, in order. -/
def canonicalCols : List String :=
  ["Date", "Description", "Amount", "Category", "Running Bal."]

/-- One VyStar row mapped onto the canonical shape: `Date` parsed from
`PostingDate`, `Amount` coerced to float, `Description`, `Category` and
`Running Bal.` copied from the source columns. -/
def vystarRow (pdte : String → Option ℤ) (pflt : String → Option ℚ)
    (r : RowV) : Except ConvErr RowV :=
  match toDatetime pdte (getVal r "PostingDate") with
  | .error e => .error e
  | .ok d =>
    match astypeFloat pflt (getVal r "Amount") with
    | .error e => .error e
    | .ok a =>
      .ok [("Date", d), ("Description", getVal r "Description"), ("Amount", a),
           ("Category", getVal r "Category"),
           ("Running Bal.", getVal r "RunningBalance")]

/-- One Bank of America row mapped onto the canonical shape: `Date`
parsed, `Amount` and `Running Bal.` quote-stripped then coerced to float,
`Description` quote-stripped, `Category` set to the constant
`"Uncategorized"` since the export carries no categories. -/
def boaRow (pdte : String → Option ℤ) (pflt : String → Option ℚ)
    (r : RowV) : Except ConvErr RowV :=
  match toDatetime pdte (getVal r "Date") with
  | .error e => .error e
  | .ok d =>
    match strReplaceQuotes (getVal r "Amount") with
    | .error e => .error e
    | .ok a0 =>
      match astypeFloat pflt a0 with
      | .error e => .error e
      | .ok a =>
        match strReplaceQuotes (getVal r "Description") with
        | .error e => .error e
        | .ok de =>
          match strReplaceQuotes (getVal r "Running Bal.") with
          | .error e => .error e
          | .ok rb0 =>
            match astypeFloat pflt rb0 with
            | .error e => .error e
            | .ok rb =>
              .ok [("Date", d), ("Description", de), ("Amount", a),
                   ("Category", .str "Uncategorized"), ("Running Bal.", rb)]

/-- Embeds `standardize_csv`: dispatch on the signature column
(`Transaction ID` for VyStar, else `Summary Amt.` for Bank of America,
else the unsupported-format failure); the Bank of America branch first
drops rows with a missing `Date`; the result is the five canonical
columns in fixed order.  Pandas converts column by column where this
embedding converts row by row; the set of succeeding inputs and the
successful output are identical, only which malformed cell is reported
first can differ. -/
def standardize_csv (pdte : String → Option ℤ) (pflt : String → Option ℚ)
    (df : DF) : Except StdErr DF :=
  if "Transaction ID" ∈ df.cols then
    match requireCols df.cols vystarCols with
    | .error e => .error (.conv e)
    | .ok _ =>
      match exMapM (vystarRow pdte pflt) df.rows with
      | .error e => .error (.conv e)
      | .ok rs => .ok ⟨canonicalCols, rs⟩
  else if "Summary Amt." ∈ df.cols then
    match requireCols df.cols boaCols with
    | .error e => .error (.conv e)
    | .ok _ =>
      match exMapM (boaRow pdte pflt)
          (df.rows.filter (fun r => !(getVal r "Date").isNa)) with
      | .error e => .error (.conv e)
      | .ok rs => .ok ⟨canonicalCols, rs⟩
  else .error .unsupportedFormat

/-- Python-dict lookup for the description-to-category mapping built from
the lookup response: on duplicate keys the last binding wins, as in a dict
comprehension. -/
def dictGet (m : List (String × String)) (k : String) : Option String :=
  m.foldl (fun acc p => if p.1 = k then some p.2 else acc) none

/-- Embeds `df[quote Description quote].map(categorization).fillna` on one
cell: a string description found in the mapping gets its category, any
other description (unmatched or missing) falls back to `"Uncategorized"`. -/
def mapFillCategory (m : List (String × String)) : Val → Val
  | .str s =>
    match dictGet m s with
    | some c => .str c
    | none => .str "Uncategorized"
  | _ => .str "Uncategorized"

/-- Embeds the category-assignment line of `categorize_transactions` on
one row. -/
def setCategory (m : List (String × String)) (r : RowV) : RowV :=
  setVal r "Category" (mapFillCategory m (getVal r "Description"))

/-- Column-name effect of assigning to a column: an existing column keeps
its place, a new one is appended. -/
def setColName (cols : List String) (c : String) : List String :=
  if c ∈ cols then cols else cols ++ [c]

/-- Extracts a datetime cell, for the `min`/`max` over the `Date` column. -/
def dateKey : Val → Option ℤ
  | .date d => some d
  | _ => none

/-- Embeds `categorize_transactions`: the request construction needs
`df.Date.min().strftime(...)`, which raises when no datetime is present;
then the external lookup is issued (its outcome is the parameter
`lookup`, an error standing for a network or auth failure); on success
the whole `Category` column is overwritten from the
description-to-category mapping with `"Uncategorized"` as the fill. -/
def categorize_transactions (lookup : Except String (List (String × String)))
    (df : DF) : Except String DF :=
  match (df.rows.filterMap (fun r => dateKey (getVal r "Date"))).min? with
  | none => .error "strftime on missing date"
  | some _ =>
    match lookup with
    | .error e => .error e
    | .ok m => .ok ⟨setColName df.cols "Category", df.rows.map (setCategory m)⟩

/-- The `pd.DataFrame()` returned by the handler of `load_and_categorize_csv`. -/
def emptyDF : DF := ⟨[], []⟩

/-- Embeds `load_and_categorize_csv`: parse, standardize and categorize,
with the whole body inside one `try`; any failure in any step is caught
and the empty DataFrame is returned (`parsed` is the outcome of
`pd.read_csv`, `lookup` the outcome of the classification request). -/
def load_and_categorize_csv (pdte : String → Option ℤ) (pflt : String → Option ℚ)
    (parsed : Except String DF)
    (lookup : Except String (List (String × String))) : DF :=
  match parsed with
  | .error _ => emptyDF
  | .ok df0 =>
    match standardize_csv pdte pflt df0 with
    | .error _ => emptyDF
    | .ok df1 =>
      match categorize_transactions lookup df1 with
      | .error _ => emptyDF
      | .ok df2 => df2

/-- Amount of a row as the number it holds, zero otherwise; paired with
the sign filters below this reproduces pandas sums, which skip missing
values. -/
def amtQ (r : RowV) : ℚ :=
  match getVal r "Amount" with
  | .num q => q
  | _ => 0

/-- Embeds the filter `df.Amount strictly positive`; a missing amount
compares false, as NaN does. -/
def isPosAmt (r : RowV) : Bool :=
  match getVal r "Amount" with
  | .num q => decide (0 < q)
  | _ => false

/-- Embeds the filter `df.Amount strictly negative`; a missing amount
compares false, as NaN does. -/
def isNegAmt (r : RowV) : Bool :=
  match getVal r "Amount" with
  | .num q => decide (q < 0)
  | _ => false

/-- Distinct non-missing key values of a column, as `groupby` keys (which
drop NaN); `groupby` also sorts its keys, an ordering no property here
depends on. -/
def groupKeys (rows : List RowV) (col : String) : List Val :=
  ((rows.map (fun r => getVal r col)).filter (fun v => !v.isNa)).dedup

/-- Sum of the `Amount` column over the rows of one group. -/
def groupSum (rows : List RowV) (col : String) (key : Val) : ℚ :=
  ((rows.filter (fun r => decide (getVal r col = key))).map amtQ).sum

/-- Embeds `df[df.Amount below zero].groupby(Category).Amount.sum().abs()`. -/
def expensesByCategory (rows : List RowV) : List (Val × ℚ) :=
  (groupKeys (rows.filter isNegAmt) "Category").map
    (fun c => (c, |groupSum (rows.filter isNegAmt) "Category" c|))

/-- Embeds `df.groupby(Date).Amount.sum()` for the daily series. -/
def dailyTotals (rows : List RowV) : List (Val × ℚ) :=
  (groupKeys rows "Date").map (fun d => (d, groupSum rows "Date" d))

/-- Metrics `analyze_business` computes and displays for one ledger. -/
structure FinancialSummary where
  total_income : ℚ
  total_expenses : ℚ
  profit_loss : ℚ
  expenses_by_category : List (Val × ℚ)
  daily_totals : List (Val × ℚ)
  deriving DecidableEq

/-- Embeds the metric computations of `analyze_business`: income is the
sum of positive amounts, expenses the absolute value of the sum of
negative amounts, profit or loss their difference, plus the per-category
expense breakdown and the per-date totals. -/
def analyze_business (rows : List RowV) : FinancialSummary :=
  { total_income := ((rows.filter isPosAmt).map amtQ).sum
    total_expenses := |((rows.filter isNegAmt).map amtQ).sum|
    profit_loss := ((rows.filter isPosAmt).map amtQ).sum
      - |((rows.filter isNegAmt).map amtQ).sum|
    expenses_by_category := expensesByCategory rows
    daily_totals := dailyTotals rows }

/-- Embeds the account-balance metric of `analyze_personal_finances`:
the `Running Bal.` cell of the last row (`iloc` at index minus one);
`none` only when the ledger is empty, in which case the function is
never called by `main`. -/
def account_balance (personal : List RowV) : Option Val :=
  personal.getLast?.map (fun r => getVal r "Running Bal.")

/-- Date comparison used by the specification reading of the balance:
datetimes compare by value, anything else sits below every datetime. -/
def dateLe : Val → Val → Bool
  | .date d1, .date d2 => decide (d1 ≤ d2)
  | .date _, _ => false
  | _, _ => true

/-- Modelled from the spec: the account balance is the most recent
running balance present, by latest date, the transaction appearing last
in ledger order on ties, and absent when no transaction carries a
running balance.  This definition follows the specification text, to be
compared with `account_balance` from the source. -/
def spec_account_balance (personal : List RowV) : Option Val :=
  ((personal.filter (fun r => !(getVal r "Running Bal.").isNa)).foldl
    (fun acc r =>
      match acc with
      | none => some r
      | some b => if dateLe (getVal b "Date") (getVal r "Date") then some r else some b)
    none).map (fun r => getVal r "Running Bal.")

/-- Choice the user makes for one uploaded file in `main`. -/
inductive Choice where
  | personalC : Choice
  | businessC (name : String) : Choice
  deriving DecidableEq

/-- Accumulators of the upload loop in `main`: the Personal ledger rows
and the dict of Business ledgers keyed by business name. -/
structure MainState where
  personalData : List RowV
  allData : List (String × List RowV)
  deriving DecidableEq

/-- Initial accumulators of `main`. -/
def initState : MainState := ⟨[], []⟩

/-- Python-dict assignment on the business-ledger dict: an existing key
keeps its place and its value is replaced, a new key is appended. -/
def dictInsert (m : List (String × List RowV)) (k : String) (v : List RowV) :
    List (String × List RowV) :=
  if m.any (fun p => decide (p.1 = k)) then
    m.map (fun p => if p.1 = k then (k, v) else p)
  else m ++ [(k, v)]

/-- Python-dict lookup on the business-ledger dict. -/
def getLedger (m : List (String × List RowV)) (k : String) : Option (List RowV) :=
  match m with
  | [] => none
  | p :: t => if p.1 = k then some p.2 else getLedger t k

/-- Embeds one iteration of the upload loop in `main`: an empty frame is
skipped; a Personal file is concatenated onto the Personal ledger; a
Business file is stored under its business name only when the entered
name is non-empty (a falsy name silently skips the assignment). -/
def process_file (s : MainState) (df : DF) (c : Choice) : MainState :=
  if df.rows = [] then s
  else
    match c with
    | .personalC => { s with personalData := s.personalData ++ df.rows }
    | .businessC name =>
      if name = "" then s
      else { s with allData := dictInsert s.allData name df.rows }

/-- The upload loop of `main` over a sequence of processed files with the
user's choices. -/
def run_main (files : List (DF × Choice)) : MainState :=
  files.foldl (fun s fc => process_file s fc.1 fc.2) initState

/-- Error of the specification's assignment contract. -/
inductive AssignError where
  | invalidAssignment : AssignError
  deriving DecidableEq

/-- Modelled from the spec: assigning Business transactions without a
non-empty business name fails with the invalid-assignment error; every
other assignment behaves as the code's loop body.  This definition
follows the specification text, to be compared with `process_file` from
the source. -/
def spec_assign (s : MainState) (df : DF) (c : Choice) :
    Except AssignError MainState :=
  match c with
  | .businessC name =>
    if name = "" then .error .invalidAssignment
    else .ok (process_file s df c)
  | .personalC => .ok (process_file s df c)

/-!
Concrete inputs used by witnesses and counterexamples.  The parsing
parameters get small concrete instances covering the date and amount
strings of the sample tables.
-/

instance {ε α : Type} [DecidableEq ε] [DecidableEq α] : DecidableEq (Except ε α) :=
  fun x y =>
    match x, y with
    | .ok a, .ok b => decidable_of_iff (a = b) (by simp)
    | .error e, .error f => decidable_of_iff (e = f) (by simp)
    | .ok _, .error _ => isFalse (by simp)
    | .error _, .ok _ => isFalse (by simp)

/-- Concrete date parser for the sample tables. -/
def demoParseDate : String → Option ℤ := fun s =>
  if s = "01/01/2024" then some 1
  else if s = "01/02/2024" then some 2
  else none

/-- Concrete float parser for the sample tables. -/
def demoParseFloat : String → Option ℚ := fun s =>
  if s = "5.00" then some 5
  else if s = "-3.00" then some (-3)
  else none

/-- A well-formed Bank of America row. -/
def rowGood : RowV :=
  [("Date", .str "01/01/2024"), ("Description", .str "Coffee"),
   ("Amount", .str "-3.00"), ("Running Bal.", .str "5.00"),
   ("Summary Amt.", .nan)]

/-- A Bank of America row with a present but unparseable date. -/
def rowBadDate : RowV :=
  [("Date", .str "Total"), ("Description", .str "Sum"),
   ("Amount", .str "5.00"), ("Running Bal.", .str "5.00"),
   ("Summary Amt.", .nan)]

/-- Column set of the sample Bank of America export. -/
def boaHeader : List String :=
  ["Date", "Description", "Amount", "Running Bal.", "Summary Amt."]

/-- A one-row Bank of America table whose every cell parses. -/
def tblGood : DF := ⟨boaHeader, [rowGood]⟩

/-- A Bank of America table holding one well-formed row and one row with
an unparseable date. -/
def tblBad : DF := ⟨boaHeader, [rowGood, rowBadDate]⟩

/-- A table whose header matches no known format signature. -/
def tblUnknown : DF := ⟨["Foo", "Bar"], [[("Foo", .num 1)]]⟩

/-- The canonical row `standardize_csv` produces from `rowGood`. -/
def stdGoodRow : RowV :=
  [("Date", .date 1), ("Description", .str "Coffee"), ("Amount", .num (-3)),
   ("Category", .str "Uncategorized"), ("Running Bal.", .num 5)]

/-- The standardized table produced from `tblGood`. -/
def stdGoodDF : DF := ⟨canonicalCols, [stdGoodRow]⟩

example : standardize_csv demoParseDate demoParseFloat tblGood = .ok stdGoodDF := by decide
example : standardize_csv demoParseDate demoParseFloat tblBad
    = .error (.conv (.badValue "to_datetime")) := by decide
example : standardize_csv demoParseDate demoParseFloat tblUnknown
    = .error .unsupportedFormat := by decide
example : load_and_categorize_csv demoParseDate demoParseFloat (.ok tblGood)
    (.error "request failed") = emptyDF := by decide
example : load_and_categorize_csv demoParseDate demoParseFloat (.ok tblGood)
    (.ok [("Coffee", "Food")])
    = ⟨canonicalCols,
       [[("Date", .date 1), ("Description", .str "Coffee"), ("Amount", .num (-3)),
         ("Category", .str "Food"), ("Running Bal.", .num 5)]]⟩ := by decide

/-!
General lemmas about the embedding's building blocks.
-/

theorem exMapM_ok_length {α β ε : Type} (f : α → Except ε β) :
    ∀ (l : List α) (l' : List β), exMapM f l = .ok l' → l'.length = l.length := by
  intro l
  induction l with
  | nil =>
    intro l' h
    simp only [exMapM] at h
    cases h
    rfl
  | cons a t ih =>
    intro l' h
    simp only [exMapM] at h
    cases hf : f a with
    | error e => rw [hf] at h; cases h
    | ok b =>
      rw [hf] at h
      cases hm : exMapM f t with
      | error e => rw [hm] at h; cases h
      | ok bs =>
        rw [hm] at h
        cases h
        simp [ih bs hm]

theorem exMapM_ok_forall {α β ε : Type} (f : α → Except ε β) (P : β → Prop)
    (hf : ∀ a b, f a = .ok b → P b) :
    ∀ (l : List α) (l' : List β), exMapM f l = .ok l' → ∀ b ∈ l', P b := by
  intro l
  induction l with
  | nil =>
    intro l' h
    simp only [exMapM] at h
    cases h
    intro b hb
    exact absurd hb (List.not_mem_nil b)
  | cons a t ih =>
    intro l' h
    simp only [exMapM] at h
    cases hfa : f a with
    | error e => rw [hfa] at h; cases h
    | ok b =>
      rw [hfa] at h
      cases hm : exMapM f t with
      | error e => rw [hm] at h; cases h
      | ok bs =>
        rw [hm] at h
        cases h
        intro x hx
        cases List.mem_cons.mp hx with
        | inl he => exact he ▸ hf a b hfa
        | inr ht => exact ih bs hm x ht

theorem getVal_map_set (c c' : String) (v : Val) (h : c' ≠ c) :
    ∀ r : RowV,
      getVal (r.map (fun p => if p.1 = c then (c, v) else p)) c' = getVal r c' := by
  intro r
  induction r with
  | nil => rfl
  | cons p t ih =>
    simp only [List.map_cons, getVal]
    by_cases hp : p.1 = c
    · rw [if_pos hp]
      have hx : ¬(((c, v) : String × Val).1 = c') := fun e => h e.symm
      have hpc' : ¬(p.1 = c') := by
        rw [hp]
        exact fun e => h e.symm
      rw [if_neg hx, if_neg hpc', ih]
    · rw [if_neg hp]
      by_cases hp' : p.1 = c'
      · rw [if_pos hp', if_pos hp']
      · rw [if_neg hp', if_neg hp', ih]

theorem getVal_append_set (c c' : String) (v : Val) (h : c' ≠ c) :
    ∀ r : RowV, getVal (r ++ [(c, v)]) c' = getVal r c' := by
  intro r
  induction r with
  | nil =>
    have hc : ¬(c = c') := fun e => h e.symm
    simp [getVal, hc]
  | cons p t ih =>
    by_cases hp : p.1 = c'
    · simp [getVal, hp]
    · simp [getVal, hp, ih]

theorem getVal_setVal_ne (r : RowV) (c c' : String) (v : Val) (h : c' ≠ c) :
    getVal (setVal r c v) c' = getVal r c' := by
  unfold setVal
  by_cases hany : r.any (fun p => decide (p.1 = c)) = true
  · rw [if_pos hany]
    exact getVal_map_set c c' v h r
  · rw [if_neg hany]
    exact getVal_append_set c c' v h r

theorem setVal_setVal (r : RowV) (c : String) (v : Val) :
    setVal (setVal r c v) c v = setVal r c v := by
  unfold setVal
  by_cases hany : r.any (fun p => decide (p.1 = c)) = true
  · rw [if_pos hany]
    have hany2 : (r.map (fun p => if p.1 = c then (c, v) else p)).any
        (fun p => decide (p.1 = c)) = true := by
      obtain ⟨p, hp, hpc⟩ := List.any_eq_true.mp hany
      have hpc' : p.1 = c := by simpa using hpc
      apply List.any_eq_true.mpr
      refine ⟨(c, v), ?_, by simp⟩
      have hmem := List.mem_map_of_mem (fun q => if q.1 = c then (c, v) else q) hp
      simpa [hpc'] using hmem
    rw [if_pos hany2, List.map_map]
    apply List.map_congr_left
    intro p _
    by_cases hp : p.1 = c
    · simp [Function.comp, hp]
    · simp [Function.comp, hp]
  · rw [if_neg hany]
    have hall : ∀ p ∈ r, ¬(p.1 = c) := by
      intro p hp hpc
      exact hany (List.any_eq_true.mpr ⟨p, hp, by simp [hpc]⟩)
    have hany2 : (r ++ [(c, v)]).any (fun p => decide (p.1 = c)) = true := by
      apply List.any_eq_true.mpr
      exact ⟨(c, v), by simp, by simp⟩
    rw [if_pos hany2, List.map_append]
    have h1 : r.map (fun p => if p.1 = c then (c, v) else p) = r := by
      have := List.map_congr_left (l := r)
        (f := fun p => if p.1 = c then (c, v) else p) (g := id)
        (fun p hp => by simp [hall p hp])
      simpa using this
    have h2 : ([((c : String), v)]).map (fun p => if p.1 = c then (c, v) else p)
        = [(c, v)] := by simp
    rw [h1, h2]

theorem getVal_setCategory (m : List (String × String)) (r : RowV) (c : String)
    (h : c ≠ "Category") : getVal (setCategory m r) c = getVal r c :=
  getVal_setVal_ne r "Category" c _ h

theorem setCategory_idem (m : List (String × String)) (r : RowV) :
    setCategory m (setCategory m r) = setCategory m r := by
  show setVal (setCategory m r) "Category"
      (mapFillCategory m (getVal (setCategory m r) "Description"))
    = setCategory m r
  rw [getVal_setCategory m r "Description" (by decide)]
  exact setVal_setVal r "Category" (mapFillCategory m (getVal r "Description"))

theorem setColName_idem (cols : List String) (c : String) :
    setColName (setColName cols c) c = setColName cols c := by
  unfold setColName
  by_cases h : c ∈ cols
  · simp [h]
  · simp [h]

theorem list_sum_nonpos : ∀ l : List ℚ, (∀ x ∈ l, x ≤ 0) → l.sum ≤ 0 := by
  intro l
  induction l with
  | nil => intro _; simp
  | cons a t ih =>
    intro h
    have ha : a ≤ 0 := h a (List.mem_cons_self a t)
    have ht : t.sum ≤ 0 := ih (fun x hx => h x (List.mem_cons_of_mem a hx))
    simp only [List.sum_cons]
    linarith

theorem sum_map_neg_eq (S : Val → ℚ) :
    ∀ keys : List Val, (keys.map (fun c => -(S c))).sum = -((keys.map S).sum) := by
  intro keys
  induction keys with
  | nil => simp
  | cons c t ih =>
    simp only [List.map_cons, List.sum_cons, ih]
    ring

theorem sum_map_filter_split (p : RowV → Bool) (f : RowV → ℚ) :
    ∀ l : List RowV,
      ((l.filter p).map f).sum + ((l.filter (fun x => !(p x))).map f).sum
        = (l.map f).sum := by
  intro l
  induction l with
  | nil => simp
  | cons a t ih =>
    by_cases h : p a = true
    · simp [List.filter_cons, h]
      linarith
    · have h' : p a = false := by revert h; cases p a <;> simp
      simp [List.filter_cons, h']
      linarith

theorem filter_comm_ne (col : String) (c c' : Val) (h : c' ≠ c) :
    ∀ l : List RowV,
      ((l.filter (fun x => !(decide (getVal x col = c)))).filter
          (fun x => decide (getVal x col = c')))
        = l.filter (fun x => decide (getVal x col = c')) := by
  intro l
  induction l with
  | nil => rfl
  | cons a t ih =>
    have hcc' : ¬(c = c') := fun e => h e.symm
    have hc'c : ¬(c' = c) := h
    by_cases h1 : getVal a col = c
    · have h2 : ¬(getVal a col = c') := by
        rw [h1]
        exact hcc'
      simp [List.filter_cons, h1, h2, hcc', hc'c, ih]
    · by_cases h2 : getVal a col = c'
      · simp [List.filter_cons, h1, h2, hcc', hc'c, ih]
      · simp [List.filter_cons, h1, h2, hcc', hc'c, ih]

theorem sum_groupSum (col : String) :
    ∀ (keys : List Val) (l : List RowV), keys.Nodup →
      (∀ r ∈ l, getVal r col ∈ keys) →
      (keys.map (fun c => groupSum l col c)).sum = (l.map amtQ).sum := by
  intro keys
  induction keys with
  | nil =>
    intro l _ hcov
    cases l with
    | nil => simp
    | cons a t => exact absurd (hcov a (List.mem_cons_self a t)) (List.not_mem_nil _)
  | cons c ks ih =>
    intro l hnd hcov
    have hnotmem : c ∉ ks := (List.nodup_cons.mp hnd).1
    have hndks : ks.Nodup := (List.nodup_cons.mp hnd).2
    have hstep : ∀ c' ∈ ks,
        groupSum l col c'
          = groupSum (l.filter (fun x => !(decide (getVal x col = c)))) col c' := by
      intro c' hc'
      have hne : c' ≠ c := fun e => hnotmem (e ▸ hc')
      unfold groupSum
      rw [filter_comm_ne col c c' hne l]
    have hcov' : ∀ r ∈ l.filter (fun x => !(decide (getVal x col = c))),
        getVal r col ∈ ks := by
      intro r hr
      have hrl : r ∈ l := List.mem_of_mem_filter hr
      have hne : ¬(getVal r col = c) := by
        have := List.of_mem_filter hr
        simpa using this
      cases List.mem_cons.mp (hcov r hrl) with
      | inl e => exact absurd e hne
      | inr hm => exact hm
    calc ((c :: ks).map (fun c0 => groupSum l col c0)).sum
        = groupSum l col c + (ks.map (fun c0 => groupSum l col c0)).sum := by
          simp
      _ = groupSum l col c
          + (ks.map (fun c0 =>
              groupSum (l.filter (fun x => !(decide (getVal x col = c)))) col c0)).sum := by
          rw [List.map_congr_left hstep]
      _ = groupSum l col c
          + ((l.filter (fun x => !(decide (getVal x col = c)))).map amtQ).sum := by
          rw [ih (l.filter (fun x => !(decide (getVal x col = c)))) hndks hcov']
      _ = (l.map amtQ).sum := by
          have hs := sum_map_filter_split (fun x => decide (getVal x col = c)) amtQ l
          unfold groupSum
          linarith

theorem amtQ_neg_of_isNeg (r : RowV) (h : isNegAmt r = true) : amtQ r < 0 := by
  unfold isNegAmt at h
  unfold amtQ
  cases hv : getVal r "Amount" with
  | nan => rw [hv] at h; cases h
  | str s => rw [hv] at h; cases h
  | num q => rw [hv] at h; simpa using h
  | date d => rw [hv] at h; cases h

theorem groupSum_nonpos (rows : List RowV) (c : Val)
    (hneg : ∀ r ∈ rows, amtQ r < 0) : groupSum rows "Category" c ≤ 0 := by
  unfold groupSum
  apply list_sum_nonpos
  intro x hx
  obtain ⟨r, hr, he⟩ := List.mem_map.mp hx
  have : r ∈ rows := List.mem_of_mem_filter hr
  rw [← he]
  exact le_of_lt (hneg r this)

/-- C1: for every ledger, the FinancialSummary produced by the analysis
satisfies total_income minus total_expenses equals profit_loss, where
total_income is the sum of the positive amounts and total_expenses the
absolute value of the sum of the negative amounts. -/
theorem C1_profit_loss_identity (rows : List RowV) :
    (analyze_business rows).total_income - (analyze_business rows).total_expenses
        = (analyze_business rows).profit_loss
    ∧ (analyze_business rows).total_income = ((rows.filter isPosAmt).map amtQ).sum
    ∧ (analyze_business rows).total_expenses
        = |((rows.filter isNegAmt).map amtQ).sum| :=
  ⟨rfl, rfl, rfl⟩

/-- C2: for every ledger whose transactions all carry a non-missing
category (as every ledger leaving the categorizer does), the values of
the per-category expense breakdown sum exactly to total_expenses. -/
theorem C2_breakdown_sums_to_expenses (rows : List RowV)
    (hcat : ∀ r ∈ rows, (getVal r "Category").isNa = false) :
    ((analyze_business rows).expenses_by_category.map Prod.snd).sum
      = (analyze_business rows).total_expenses := by
  show ((expensesByCategory rows).map Prod.snd).sum
    = |((rows.filter isNegAmt).map amtQ).sum|
  have hneg : ∀ r ∈ rows.filter isNegAmt, amtQ r < 0 := by
    intro r hr
    exact amtQ_neg_of_isNeg r (List.of_mem_filter hr)
  have hfilter :
      ((rows.filter isNegAmt).map (fun r => getVal r "Category")).filter
          (fun v => !v.isNa)
        = (rows.filter isNegAmt).map (fun r => getVal r "Category") := by
    apply List.filter_eq_self.mpr
    intro v hv
    obtain ⟨r, hr, he⟩ := List.mem_map.mp hv
    have hrr : r ∈ rows := List.mem_of_mem_filter hr
    rw [← he]
    simp [hcat r hrr]
  have hkeys : groupKeys (rows.filter isNegAmt) "Category"
      = ((rows.filter isNegAmt).map (fun r => getVal r "Category")).dedup := by
    unfold groupKeys
    rw [hfilter]
  have hnd : (groupKeys (rows.filter isNegAmt) "Category").Nodup := by
    rw [hkeys]
    exact List.nodup_dedup _
  have hcov : ∀ r ∈ rows.filter isNegAmt,
      getVal r "Category" ∈ groupKeys (rows.filter isNegAmt) "Category" := by
    intro r hr
    rw [hkeys]
    exact List.mem_dedup.mpr (List.mem_map_of_mem _ hr)
  have habs : ∀ c : Val,
      |groupSum (rows.filter isNegAmt) "Category" c|
        = -(groupSum (rows.filter isNegAmt) "Category" c) := by
    intro c
    exact abs_of_nonpos (groupSum_nonpos (rows.filter isNegAmt) c hneg)
  calc ((expensesByCategory rows).map Prod.snd).sum
      = ((groupKeys (rows.filter isNegAmt) "Category").map
          (fun c => |groupSum (rows.filter isNegAmt) "Category" c|)).sum := by
        unfold expensesByCategory
        rw [List.map_map]
        rfl
    _ = ((groupKeys (rows.filter isNegAmt) "Category").map
          (fun c => -(groupSum (rows.filter isNegAmt) "Category" c))).sum := by
        rw [List.map_congr_left (fun c _ => habs c)]
    _ = -(((groupKeys (rows.filter isNegAmt) "Category").map
          (fun c => groupSum (rows.filter isNegAmt) "Category" c)).sum) := by
        rw [sum_map_neg_eq]
    _ = -(((rows.filter isNegAmt).map amtQ).sum) := by
        rw [sum_groupSum "Category" (groupKeys (rows.filter isNegAmt) "Category")
          (rows.filter isNegAmt) hnd hcov]
    _ = |((rows.filter isNegAmt).map amtQ).sum| := by
        have hsum : ((rows.filter isNegAmt).map amtQ).sum ≤ 0 := by
          apply list_sum_nonpos
          intro x hx
          obtain ⟨r, hr, he⟩ := List.mem_map.mp hx
          rw [← he]
          exact le_of_lt (hneg r hr)
        rw [abs_of_nonpos hsum]

/-- A canonical row that already carries the source-provided category
`"Sales"`. -/
def rowCat : RowV :=
  [("Date", .date 1), ("Description", .str "coffee"), ("Amount", .num (-3)),
   ("Category", .str "Sales"), ("Running Bal.", .num 10)]

/-- The table holding `rowCat`. -/
def dfCat : DF := ⟨canonicalCols, [rowCat]⟩

/-- The result of categorizing `dfCat` with an empty lookup mapping: the
already-set category has been replaced. -/
def dfCatOut : DF :=
  ⟨canonicalCols,
   [[("Date", .date 1), ("Description", .str "coffee"), ("Amount", .num (-3)),
     ("Category", .str "Uncategorized"), ("Running Bal.", .num 10)]]⟩

/-- Counterexample to C3 as stated: a transaction whose category is
already set to `"Sales"` has it overwritten to `"Uncategorized"` by a
successful categorization whose mapping does not know the description —
the categorizer does not restrict itself to previously empty fields. -/
theorem C3_counterexample :
    getVal rowCat "Category" = .str "Sales"
    ∧ categorize_transactions (.ok []) dfCat = .ok dfCatOut := by
  constructor
  · decide
  · decide

/-- C3 amended: categorization overwrites every category from the lookup
mapping, so it is not limited to previously empty fields; it is still
idempotent for a fixed lookup response, because the new categories depend
only on the descriptions, which it never changes. -/
theorem C3_categorize_idempotent (m : List (String × String)) (df df' : DF)
    (h : categorize_transactions (.ok m) df = .ok df') :
    categorize_transactions (.ok m) df' = .ok df' := by
  unfold categorize_transactions at h
  cases hm : (df.rows.filterMap fun r => dateKey (getVal r "Date")).min? with
  | none => rw [hm] at h; cases h
  | some d =>
    rw [hm] at h
    have hdf' : df' = ⟨setColName df.cols "Category", df.rows.map (setCategory m)⟩ := by
      cases h
      rfl
    subst hdf'
    unfold categorize_transactions
    have hfun : (fun r => dateKey (getVal (setCategory m r) "Date"))
        = fun r : RowV => dateKey (getVal r "Date") := by
      funext r
      rw [getVal_setCategory m r "Date" (by decide)]
    have hdates : ((df.rows.map (setCategory m)).filterMap
          fun r => dateKey (getVal r "Date"))
        = df.rows.filterMap fun r => dateKey (getVal r "Date") := by
      rw [List.filterMap_map]
      show df.rows.filterMap ((fun r => dateKey (getVal r "Date")) ∘ setCategory m)
        = df.rows.filterMap fun r => dateKey (getVal r "Date")
      rw [show ((fun r => dateKey (getVal r "Date")) ∘ setCategory m)
          = fun r : RowV => dateKey (getVal (setCategory m r) "Date") from rfl, hfun]
    show (match ((df.rows.map (setCategory m)).filterMap
          fun r => dateKey (getVal r "Date")).min? with
      | none => Except.error "strftime on missing date"
      | some _ => Except.ok (⟨setColName (setColName df.cols "Category") "Category",
          (df.rows.map (setCategory m)).map (setCategory m)⟩ : DF))
      = Except.ok ⟨setColName df.cols "Category", df.rows.map (setCategory m)⟩
    rw [hdates, hm]
    rw [setColName_idem, List.map_map]
    show Except.ok (DF.mk (setColName df.cols "Category")
        (df.rows.map (setCategory m ∘ setCategory m)))
      = Except.ok ⟨setColName df.cols "Category", df.rows.map (setCategory m)⟩
    simp only [Function.comp_def]
    rw [List.map_congr_left (fun r _ => setCategory_idem m r)]

/-- Witness for the amended C3 at a concrete table and mapping. -/
theorem C3_categorize_idempotent_witness :
    categorize_transactions (.ok []) dfCatOut = .ok dfCatOut :=
  C3_categorize_idempotent [] dfCat dfCatOut (by decide)

/-- Sample ledger for the C2 witness: two Rent expenses and one Sales
income row, all carrying categories. -/
def rowsC2 : List RowV :=
  [[("Date", .date 1), ("Description", .str "rent"), ("Amount", .num (-120)),
    ("Category", .str "Rent"), ("Running Bal.", .nan)],
   [("Date", .date 2), ("Description", .str "sale"), ("Amount", .num 500),
    ("Category", .str "Sales"), ("Running Bal.", .nan)],
   [("Date", .date 3), ("Description", .str "rent again"), ("Amount", .num (-30)),
    ("Category", .str "Rent"), ("Running Bal.", .nan)]]

/-- Witness for C2 at a concrete ledger. -/
theorem C2_breakdown_sums_to_expenses_witness :
    (∀ r ∈ rowsC2, (getVal r "Category").isNa = false)
    ∧ ((analyze_business rowsC2).expenses_by_category.map Prod.snd).sum
        = (analyze_business rowsC2).total_expenses :=
  ⟨by decide, C2_breakdown_sums_to_expenses rowsC2 (by decide)⟩

/-- Counterexample to C4 as stated: a well-formed file normalizes to a
non-empty table, the classification lookup fails, and the pipeline
returns the empty table — the transactions are discarded instead of
being kept with `"Uncategorized"` categories, so the ledger cannot
produce a summary over them. -/
theorem C4_counterexample :
    load_and_categorize_csv demoParseDate demoParseFloat (.ok tblGood)
        (.error "request failed") = emptyDF
    ∧ standardize_csv demoParseDate demoParseFloat tblGood = .ok stdGoodDF
    ∧ stdGoodDF.rows ≠ [] := by
  refine ⟨by decide, by decide, by decide⟩

/-- C4 amended: when the classification lookup fails, the exception is
caught at the pipeline boundary of `load_and_categorize_csv` (the
function always returns a table, never an exception), but the whole
file degrades to the empty table, so the affected ledger receives none
of the file's transactions. -/
theorem C4_lookup_failure_drops_file (pdte : String → Option ℤ)
    (pflt : String → Option ℚ) (parsed : Except String DF) (e : String) :
    load_and_categorize_csv pdte pflt parsed (.error e) = emptyDF := by
  unfold load_and_categorize_csv
  cases parsed with
  | error s => rfl
  | ok df0 =>
    cases h : standardize_csv pdte pflt df0 with
    | error e2 => simp [h]
    | ok df1 =>
      simp only [h]
      unfold categorize_transactions
      cases hm : (df1.rows.filterMap fun r => dateKey (getVal r "Date")).min? with
      | none => simp [hm]
      | some d => simp [hm]

/-- C5: standardization fails with the unsupported-format error exactly
when neither the VyStar signature column `Transaction ID` nor the Bank
of America signature column `Summary Amt.` is among the raw headers;
when a signature matches, no such error is raised. -/
theorem C5_unsupported_iff (pdte : String → Option ℤ) (pflt : String → Option ℚ)
    (df : DF) :
    standardize_csv pdte pflt df = .error .unsupportedFormat
      ↔ ("Transaction ID" ∉ df.cols ∧ "Summary Amt." ∉ df.cols) := by
  constructor
  · intro h
    by_cases h1 : "Transaction ID" ∈ df.cols
    · exfalso
      unfold standardize_csv at h
      rw [if_pos h1] at h
      cases hrc : requireCols df.cols vystarCols with
      | error e => rw [hrc] at h; simp at h
      | ok u =>
        rw [hrc] at h
        cases hm : exMapM (vystarRow pdte pflt) df.rows with
        | error e => rw [hm] at h; simp at h
        | ok rs => rw [hm] at h; simp at h
    · by_cases h2 : "Summary Amt." ∈ df.cols
      · exfalso
        unfold standardize_csv at h
        rw [if_neg h1, if_pos h2] at h
        cases hrc : requireCols df.cols boaCols with
        | error e => rw [hrc] at h; simp at h
        | ok u =>
          rw [hrc] at h
          cases hm : exMapM (boaRow pdte pflt)
              (df.rows.filter (fun r => !(getVal r "Date").isNa)) with
          | error e => rw [hm] at h; simp at h
          | ok rs => rw [hm] at h; simp at h
      · exact ⟨h1, h2⟩
  · rintro ⟨h1, h2⟩
    unfold standardize_csv
    rw [if_neg h1, if_neg h2]

/-- Witness for C5 at a concrete unrecognized header set. -/
theorem C5_unsupported_iff_witness :
    standardize_csv demoParseDate demoParseFloat tblUnknown
      = .error .unsupportedFormat :=
  (C5_unsupported_iff demoParseDate demoParseFloat tblUnknown).mpr
    ⟨by decide, by decide⟩

/-- Counterexample to C6 as stated: `tblBad` is a recognized Bank of
America table whose second row has a present but unparseable date; the
whole file fails to standardize and the pipeline yields the empty table,
losing also the first, well-formed row — which standardizes fine on its
own, as the third conjunct shows. -/
theorem C6_counterexample :
    standardize_csv demoParseDate demoParseFloat tblBad
        = .error (.conv (.badValue "to_datetime"))
    ∧ load_and_categorize_csv demoParseDate demoParseFloat (.ok tblBad) (.ok [])
        = emptyDF
    ∧ standardize_csv demoParseDate demoParseFloat tblGood = .ok stdGoodDF := by
  refine ⟨by decide, by decide, by decide⟩

/-- C6 amended: in the Bank of America format only rows whose date cell
is missing are dropped row by row (on success the output has exactly one
row per date-carrying input row); a present but malformed date or amount
fails the whole file, and the pipeline boundary then discards every row
of the file. -/
theorem C6_row_drop_vs_file_failure (pdte : String → Option ℤ)
    (pflt : String → Option ℚ) (df : DF)
    (h1 : "Transaction ID" ∉ df.cols) (h2 : "Summary Amt." ∈ df.cols) :
    (∀ out, standardize_csv pdte pflt df = .ok out →
        out.rows.length = (df.rows.filter (fun r => !(getVal r "Date").isNa)).length)
    ∧ (∀ e lookup, standardize_csv pdte pflt df = .error e →
        load_and_categorize_csv pdte pflt (.ok df) lookup = emptyDF) := by
  constructor
  · intro out h
    unfold standardize_csv at h
    rw [if_neg h1, if_pos h2] at h
    cases hrc : requireCols df.cols boaCols with
    | error e => rw [hrc] at h; cases h
    | ok u =>
      rw [hrc] at h
      cases hm : exMapM (boaRow pdte pflt)
          (df.rows.filter (fun r => !(getVal r "Date").isNa)) with
      | error e => rw [hm] at h; cases h
      | ok rs =>
        rw [hm] at h
        have hout : out = ⟨canonicalCols, rs⟩ := by
          cases h
          rfl
        subst hout
        exact exMapM_ok_length (boaRow pdte pflt) _ rs hm
  · intro e lookup h
    simp only [load_and_categorize_csv, h]

/-- Witness for the amended C6 at the concrete failing table. -/
theorem C6_row_drop_vs_file_failure_witness :
    load_and_categorize_csv demoParseDate demoParseFloat (.ok tblBad) (.ok [])
      = emptyDF :=
  (C6_row_drop_vs_file_failure demoParseDate demoParseFloat tblBad
      (by decide) (by decide)).2
    (.conv (.badValue "to_datetime")) (.ok []) (by decide)

/-- A personal-ledger row dated later but appearing first, with running
balance one hundred. -/
def rowBalLate : RowV :=
  [("Date", .date 5), ("Description", .str "deposit"), ("Amount", .num 1),
   ("Category", .str "X"), ("Running Bal.", .num 100)]

/-- A personal-ledger row dated earlier but appearing last, with running
balance fifty. -/
def rowBalEarly : RowV :=
  [("Date", .date 3), ("Description", .str "coffee"), ("Amount", .num 2),
   ("Category", .str "X"), ("Running Bal.", .num 50)]

/-- Counterexample to C7 as stated: in a Personal ledger whose last row
is not the one with the latest date, the code reports the last row's
running balance (fifty) while the claimed latest-date rule would report
one hundred. -/
theorem C7_counterexample :
    account_balance [rowBalLate, rowBalEarly] = some (.num 50)
    ∧ spec_account_balance [rowBalLate, rowBalEarly] = some (.num 100) := by
  refine ⟨by decide, by decide⟩

/-- C7 amended: the reported account balance is the `Running Bal.` cell
of the transaction appearing last in ledger order, unconditionally — no
date comparison and no restriction to rows that carry a balance; it is
absent only for an empty ledger (which `main` never passes in). -/
theorem C7_last_row_balance (l : List RowV) (r : RowV) :
    account_balance (l ++ [r]) = some (getVal r "Running Bal.") := by
  unfold account_balance
  rw [List.getLast?_concat]
  rfl

theorem getLedger_map_replace (k : String) (v : List RowV) :
    ∀ m : List (String × List RowV), m.any (fun p => decide (p.1 = k)) = true →
      getLedger (m.map (fun p => if p.1 = k then (k, v) else p)) k = some v := by
  intro m
  induction m with
  | nil => intro h; cases h
  | cons p t ih =>
    intro h
    by_cases hp : p.1 = k
    · simp only [List.map_cons, if_pos hp]
      show getLedger ((k, v) :: _) k = some v
      simp [getLedger]
    · have ht : t.any (fun p => decide (p.1 = k)) = true := by
        simp only [List.any_cons] at h
        cases hh : t.any (fun p => decide (p.1 = k)) with
        | true => rfl
        | false => rw [hh] at h; simp [hp] at h
      simp only [List.map_cons, if_neg hp]
      show getLedger (p :: _) k = some v
      simp only [getLedger, if_neg hp]
      exact ih ht

theorem getLedger_append_new (k : String) (v : List RowV) :
    ∀ m : List (String × List RowV), (∀ p ∈ m, p.1 ≠ k) →
      getLedger (m ++ [(k, v)]) k = some v := by
  intro m
  induction m with
  | nil => intro _; simp [getLedger]
  | cons p t ih =>
    intro h
    have hp : p.1 ≠ k := h p (List.mem_cons_self p t)
    show getLedger (p :: (t ++ [(k, v)])) k = some v
    simp only [getLedger, if_neg hp]
    exact ih (fun q hq => h q (List.mem_cons_of_mem p hq))

theorem getLedger_dictInsert (k : String) (v : List RowV) (m : List (String × List RowV)) :
    getLedger (dictInsert m k v) k = some v := by
  unfold dictInsert
  by_cases hany : m.any (fun p => decide (p.1 = k)) = true
  · rw [if_pos hany]
    exact getLedger_map_replace k v m hany
  · rw [if_neg hany]
    apply getLedger_append_new
    intro p hp hpk
    exact hany (List.any_eq_true.mpr ⟨p, hp, by simp [hpk]⟩)

/-- A first Business batch. -/
def dfBizX : DF :=
  ⟨canonicalCols,
   [[("Date", .date 1), ("Description", .str "first batch"), ("Amount", .num 1),
     ("Category", .str "C"), ("Running Bal.", .nan)]]⟩

/-- A second, different Business batch for the same business name. -/
def dfBizY : DF :=
  ⟨canonicalCols,
   [[("Date", .date 2), ("Description", .str "second batch"), ("Amount", .num 2),
     ("Category", .str "C"), ("Running Bal.", .nan)]]⟩

/-- Counterexample to C8 as stated: assigning two batches to the same
business name leaves the ledger holding only the second batch — the dict
assignment replaces, so the first batch's transaction is in no ledger,
not the union of both batches. -/
theorem C8_counterexample :
    (run_main [(dfBizX, .businessC "Acme"), (dfBizY, .businessC "Acme")]).allData
        = [("Acme", dfBizY.rows)]
    ∧ (run_main [(dfBizX, .businessC "Acme"), (dfBizY, .businessC "Acme")]).personalData
        = []
    ∧ ∀ r ∈ dfBizX.rows, r ∉ dfBizY.rows := by
  refine ⟨by decide, by decide, by decide⟩

/-- C8 amended: there is exactly one Personal ledger and repeated
Personal assignments accumulate into it by append; but a repeated
Business assignment to the same name replaces the earlier batch instead
of accumulating — afterwards the ledger under that name holds exactly
the new batch. -/
theorem C8_personal_accumulates_business_replaces :
    (∀ (s : MainState) (df : DF),
        (process_file s df .personalC).personalData = s.personalData ++ df.rows
        ∧ (process_file s df .personalC).allData = s.allData)
    ∧ (∀ (s : MainState) (n : String) (df : DF), df.rows ≠ [] → n ≠ "" →
        getLedger (process_file s df (.businessC n)).allData n = some df.rows) := by
  constructor
  · intro s df
    unfold process_file
    by_cases h : df.rows = []
    · rw [if_pos h, h]
      simp
    · rw [if_neg h]
      exact ⟨rfl, rfl⟩
  · intro s n df hdf hn
    unfold process_file
    rw [if_neg hdf]
    show getLedger (if n = "" then s
        else { s with allData := dictInsert s.allData n df.rows }).allData n
      = some df.rows
    rw [if_neg hn]
    exact getLedger_dictInsert n df.rows s.allData

/-- Witness for the amended C8 at a concrete state and batch. -/
theorem C8_personal_accumulates_business_replaces_witness :
    getLedger (process_file initState dfBizX (.businessC "Acme")).allData "Acme"
      = some dfBizX.rows :=
  C8_personal_accumulates_business_replaces.2 initState "Acme" dfBizX
    (by decide) (by decide)

/-- Counterexample to C9 as stated: a Business assignment with the empty
name completes without any failure, returning the state unchanged, while
the specification's contract demands the invalid-assignment error. -/
theorem C9_counterexample :
    process_file initState dfBizX (.businessC "") = initState
    ∧ spec_assign initState dfBizX (.businessC "")
        = .error .invalidAssignment := by
  refine ⟨by decide, by decide⟩

/-- C9 amended: assigning a Business file under the empty name raises no
error at all — the assignment is silently skipped, the state is
unchanged, so the file's transactions indeed appear in no ledger, but
nothing like an InvalidAssignmentError exists in the code. -/
theorem C9_empty_name_silently_skipped (s : MainState) (df : DF) :
    process_file s df (.businessC "") = s := by
  unfold process_file
  by_cases h : df.rows = []
  · rw [if_pos h]
  · rw [if_neg h]
    rfl

theorem vystarRow_keys (pdte : String → Option ℤ) (pflt : String → Option ℚ)
    (r : RowV) (out : RowV) (h : vystarRow pdte pflt r = .ok out) :
    out.map Prod.fst = canonicalCols := by
  unfold vystarRow at h
  cases h1 : toDatetime pdte (getVal r "PostingDate") with
  | error e => rw [h1] at h; cases h
  | ok d =>
    rw [h1] at h
    cases h2 : astypeFloat pflt (getVal r "Amount") with
    | error e => rw [h2] at h; cases h
    | ok a =>
      rw [h2] at h
      cases h
      rfl

theorem boaRow_keys (pdte : String → Option ℤ) (pflt : String → Option ℚ)
    (r : RowV) (out : RowV) (h : boaRow pdte pflt r = .ok out) :
    out.map Prod.fst = canonicalCols := by
  unfold boaRow at h
  split at h
  · cases h
  · split at h
    · cases h
    · split at h
      · cases h
      · split at h
        · cases h
        · split at h
          · cases h
          · split at h
            · cases h
            · cases h
              rfl

/-- C10: whenever standardization succeeds, the output table consists of
exactly the five canonical columns `Date, Description, Amount, Category,
Running Bal.` in that fixed order — at the table level and in every
row — with every other source column discarded. -/
theorem C10_canonical_shape (pdte : String → Option ℤ) (pflt : String → Option ℚ)
    (df : DF) (out : DF) (h : standardize_csv pdte pflt df = .ok out) :
    out.cols = canonicalCols ∧ ∀ r ∈ out.rows, r.map Prod.fst = canonicalCols := by
  unfold standardize_csv at h
  by_cases h1 : "Transaction ID" ∈ df.cols
  · rw [if_pos h1] at h
    cases hrc : requireCols df.cols vystarCols with
    | error e => rw [hrc] at h; cases h
    | ok u =>
      rw [hrc] at h
      cases hm : exMapM (vystarRow pdte pflt) df.rows with
      | error e => rw [hm] at h; cases h
      | ok rs =>
        rw [hm] at h
        have hout : out = ⟨canonicalCols, rs⟩ := by
          cases h
          rfl
        subst hout
        refine ⟨rfl, ?_⟩
        exact exMapM_ok_forall (vystarRow pdte pflt)
          (fun b => b.map Prod.fst = canonicalCols)
          (fun a b hb => vystarRow_keys pdte pflt a b hb) df.rows rs hm
  · rw [if_neg h1] at h
    by_cases h2 : "Summary Amt." ∈ df.cols
    · rw [if_pos h2] at h
      cases hrc : requireCols df.cols boaCols with
      | error e => rw [hrc] at h; cases h
      | ok u =>
        rw [hrc] at h
        cases hm : exMapM (boaRow pdte pflt)
            (df.rows.filter (fun r => !(getVal r "Date").isNa)) with
        | error e => rw [hm] at h; cases h
        | ok rs =>
          rw [hm] at h
          have hout : out = ⟨canonicalCols, rs⟩ := by
            cases h
            rfl
          subst hout
          refine ⟨rfl, ?_⟩
          exact exMapM_ok_forall (boaRow pdte pflt)
            (fun b => b.map Prod.fst = canonicalCols)
            (fun a b hb => boaRow_keys pdte pflt a b hb) _ rs hm
    · rw [if_neg h2] at h
      cases h

/-- Witness for C10 at the concrete sample table. -/
theorem C10_canonical_shape_witness :
    stdGoodDF.cols = canonicalCols
    ∧ ∀ r ∈ stdGoodDF.rows, r.map Prod.fst = canonicalCols :=
  C10_canonical_shape demoParseDate demoParseFloat tblGood stdGoodDF (by decide)
